import Mathlib

set_option maxRecDepth 100000

/-!
Verification development for the PEPUAIBOT repository: a Telegram
question-answering bot over a scraped knowledge corpus.

Modelling conventions (shallow embedding of the JavaScript sources):
* JavaScript strings are modelled as `List Char` (`JStr`); the repository's
  data is ASCII, so `Char.toLower` coincides with `toLowerCase` here.
* Stateful handler code (`src/telegramBot.js`) is modelled by explicit state
  passing over the per-session conversation-context entry.
* Fallible code is modelled with `Option`/`Except`: a thrown JavaScript
  exception becomes `none`/`.error`.
* External collaborators (the OpenAI call, the price HTTP client, message
  transport) are modelled as an explicit environment record `Env`.
-/

/-- JavaScript strings, modelled as lists of characters. -/
abbrev JStr := List Char

/-- Whitespace characters recognised by `String.prototype.trim` (ASCII fragment
covering every character the sources can produce). -/
def jsWsChar (c : Char) : Bool := c = ' ' || c = '\t' || c = '\n' || c = '\r'

/-- `s.toLowerCase()` (ASCII fragment: `Char.toLower` lower-cases `A`–`Z`). -/
def jsLower (s : JStr) : JStr := s.map Char.toLower

/-- `s.trim()`: strip leading and trailing whitespace. -/
def jsTrim (s : JStr) : JStr := ((s.dropWhile jsWsChar).reverse.dropWhile jsWsChar).reverse

/-- `pre` is a prefix of `s` (used for `String.prototype.startsWith`). -/
def leadsWith : JStr → JStr → Bool
  | [], _ => true
  | _ :: _, [] => false
  | c :: pre, d :: s => c = d && leadsWith pre s

/-- `haystack.includes(needle)`: substring containment. -/
def jsIncludes (needle : JStr) : JStr → Bool
  | [] => needle.isEmpty
  | c :: rest => leadsWith needle (c :: rest) || jsIncludes needle rest

/-- `s.split(sep)` for a single-character separator: JavaScript keeps empty
fields, and splitting the empty string yields `[""]`. -/
def splitChar (sep : Char) : JStr → List JStr
  | [] => [[]]
  | c :: rest =>
    match splitChar sep rest with
    | [] => [[c]]
    | h :: t => if c = sep then [] :: h :: t else (c :: h) :: t

/-- Worker for `s.split(regexp)` where the regexp matches a non-empty run of
characters satisfying `p`.  `some accR` holds the reversed current field;
`none` means the scanner is inside a delimiter run. -/
def splitRunsGo (p : Char → Bool) : List Char → Option (List Char) → List JStr
  | [], some accR => [accR.reverse]
  | [], none => [[]]
  | c :: rest, some accR =>
    if p c then accR.reverse :: splitRunsGo p rest none
    else splitRunsGo p rest (some (c :: accR))
  | c :: rest, none =>
    if p c then splitRunsGo p rest none
    else splitRunsGo p rest (some [c])

/-- `s.split(regexp)` for a regexp matching runs of `p`-characters (such as
`/\s+/` or `/[.!?]+/`): boundary runs produce empty fields, as in JavaScript. -/
def splitRuns (p : Char → Bool) (s : JStr) : List JStr := splitRunsGo p s (some [])

/-!  `DataProcessor.chunkText` (src/dataProcessor.js lines 31–54). -/

/-- Sentence terminators of the chunker's regex `[^.!?]+[.!?]+`. -/
def isSentTerm (c : Char) : Bool := c = '.' || c = '!' || c = '?'

/-- Scanner for `text.match(/[^.!?]+[.!?]+/g)`: each match is a non-empty run
of non-terminators followed by a non-empty run of terminators.  `bodyR` and
`tersR` hold the reversed body and terminator runs of the match in progress;
unterminated trailing text yields no match. -/
def sentGo : List Char → List Char → List Char → List JStr
  | [], bodyR, tersR =>
    if !bodyR.isEmpty && !tersR.isEmpty then [bodyR.reverse ++ tersR.reverse] else []
  | c :: rest, bodyR, tersR =>
    if isSentTerm c then
      if bodyR.isEmpty then sentGo rest [] []
      else sentGo rest bodyR (c :: tersR)
    else
      if tersR.isEmpty then sentGo rest (c :: bodyR) []
      else (bodyR.reverse ++ tersR.reverse) :: sentGo rest [c] []

/-- `text.match(/[^.!?]+[.!?]+/g) || [text]`: the sentence units `chunkText`
iterates over, falling back to the whole text when the regex has no match. -/
def sentenceUnits (text : JStr) : List JStr :=
  match sentGo text [] [] with
  | [] => [text]
  | m :: ms => m :: ms

/-- The overlap seed `currentChunk.split(' ').slice(-Math.floor(overlap / 10)).join(' ')`.
`Array.prototype.slice(-0)` equals `slice(0)` and returns the whole array,
hence the separate `k = 0` case. -/
def overlapSeed (cur : JStr) (overlap : Nat) : JStr :=
  let words := splitChar ' ' cur
  let k := overlap / 10
  let ws := if k = 0 then words else words.drop (words.length - k)
  List.intercalate [' '] ws

/-- The sentence-accumulation loop of `chunkText`: close the buffer when
appending the next unit would exceed `maxSize` and the buffer is non-empty,
seeding the next buffer with the overlap words; the trailing buffer becomes a
final chunk when its trimmed form is non-empty. -/
def chunkTextGo (maxSize overlap : Nat) : List JStr → JStr → List JStr
  | [], cur => if (jsTrim cur).isEmpty then [] else [jsTrim cur]
  | s :: rest, cur =>
    if (cur ++ s).length > maxSize && !cur.isEmpty then
      jsTrim cur :: chunkTextGo maxSize overlap rest (overlapSeed cur overlap ++ [' '] ++ s)
    else
      chunkTextGo maxSize overlap rest (cur ++ s)

/-- `DataProcessor.chunkText(text, maxChunkSize = 2000, overlap = 200)`. -/
def chunkText (text : JStr) (maxSize : Nat := 2000) (overlap : Nat := 200) : List JStr :=
  chunkTextGo maxSize overlap (sentenceUnits text) []

/-!
`AIAgent.findRelevantChunks` (src/unnamed/part_002 lines 107–131) builds
`new RegExp(word, 'g')` from each raw query term and counts its matches in the
lower-cased chunk content.  The ECMAScript regular-expression engine is a
platform primitive, so the fragment of it those patterns can exercise is
modelled here: single-character atoms (literal characters, `.`, and
punctuation escapes) with the postfix quantifiers `?`, `*`, `+`.  Constructs
outside this fragment are conservatively rejected by the parser; every theorem
below evaluates the engine only on patterns where its behaviour provably
coincides with ECMAScript (plain words, `?`, `*`, `(`, and a word with a
trailing `?`).
-/

/-- An atom of the modelled regex fragment. -/
inductive RAtom
  | ch (c : Char)
  | dot
deriving DecidableEq

/-- A postfix quantifier (or none) attached to an atom. -/
inductive RQuant
  | one
  | opt
  | star
  | plus
deriving DecidableEq

/-- A compiled pattern element: an atom with its quantifier. -/
abbrev RElem := RAtom × RQuant

/-- A lexed pattern token. -/
inductive RTok
  | atom (a : RAtom)
  | quant (q : RQuant)
deriving DecidableEq

/-- Metacharacters outside the modelled fragment: the parser rejects them.
On the patterns this development evaluates, rejection coincides with an
ECMAScript `SyntaxError`. -/
def rMeta (c : Char) : Bool :=
  c = '(' || c = ')' || c = '[' || c = ']' || c = '{' || c = '}' ||
  c = '|' || c = '^' || c = '$'

/-- The quantifier denoted by a character, if any. -/
def rQuantOf (c : Char) : Option RQuant :=
  if c = '?' then some .opt
  else if c = '*' then some .star
  else if c = '+' then some .plus
  else none

/-- Lex a pattern string into atom and quantifier tokens.  A trailing `\`,
an alphanumeric escape (a character class such as `\d`), or an unsupported
metacharacter yields `none`. -/
def rLex : List Char → Option (List RTok)
  | [] => some []
  | c :: rest =>
    if c = '\\' then
      match rest with
      | [] => none
      | d :: rest' =>
        if d.isAlphanum then none
        else (rLex rest').map (fun ts => RTok.atom (.ch d) :: ts)
    else
      match rQuantOf c with
      | some q => (rLex rest).map (fun ts => RTok.quant q :: ts)
      | none =>
        if c = '.' then (rLex rest).map (fun ts => RTok.atom .dot :: ts)
        else if rMeta c then none
        else (rLex rest).map (fun ts => RTok.atom (.ch c) :: ts)

/-- Attach each postfix quantifier to the atom before it; a quantifier with
nothing to repeat is a syntax error (`none`), as in ECMAScript. -/
def rGroup : List RTok → Option (List RElem)
  | [] => some []
  | .quant _ :: _ => none
  | .atom a :: .quant q :: rest => (rGroup rest).map (fun es => (a, q) :: es)
  | .atom a :: rest => (rGroup rest).map (fun es => (a, .one) :: es)

/-- Compile a pattern string (`new RegExp(pattern)`); `none` models the thrown
`SyntaxError`. -/
def parseRegex (p : JStr) : Option (List RElem) := (rLex p).bind rGroup

/-- ECMAScript line terminators, which `.` does not match. -/
def isLineTerm (c : Char) : Bool :=
  c = '\n' || c = '\r' || c = Char.ofNat 0x2028 || c = Char.ofNat 0x2029

/-- Does atom `a` match character `c`? -/
def rAtomM : RAtom → Char → Bool
  | .ch c', c => c = c'
  | .dot, c => !isLineTerm c

/-- Leftmost match attempt at the current position: returns the number of
characters consumed by the match ECMAScript would produce here (greedy
quantifiers, explored with backtracking in preference order), or `none`.
`fuel` bounds the recursion depth; every recursive call shortens the string
or the pattern, so `s.length + p.length + 1` fuel is always sufficient. -/
def rMatchHereGo : Nat → List RElem → List Char → Option Nat
  | 0, _, _ => none
  | _ + 1, [], _ => some 0
  | fuel + 1, (a, q) :: ps, s =>
    match q with
    | .one =>
      match s with
      | [] => none
      | c :: rest => if rAtomM a c then (rMatchHereGo fuel ps rest).map (· + 1) else none
    | .opt =>
      (match s with
       | [] => none
       | c :: rest => if rAtomM a c then (rMatchHereGo fuel ps rest).map (· + 1) else none) <|>
      rMatchHereGo fuel ps s
    | .plus =>
      match s with
      | [] => none
      | c :: rest =>
        if rAtomM a c then (rMatchHereGo fuel ((a, .star) :: ps) rest).map (· + 1) else none
    | .star =>
      (match s with
       | [] => none
       | c :: rest =>
         if rAtomM a c then (rMatchHereGo fuel ((a, .star) :: ps) rest).map (· + 1) else none) <|>
      rMatchHereGo fuel ps s

/-- Leftmost match attempt at the current position with sufficient fuel. -/
def rMatchHere (p : List RElem) (s : List Char) : Option Nat :=
  rMatchHereGo (s.length + p.length + 1) p s

/-- Number of matches `content.match(re_with_g_flag)` yields from the current
position on: repeated leftmost search, advancing past each match and one
position past an empty match (the `lastIndex` rule).  `fuel ≥ s.length + 1`
is always sufficient. -/
def rCountGo : Nat → List RElem → List Char → Nat
  | 0, _, _ => 0
  | _ + 1, p, [] =>
    match rMatchHere p [] with
    | some _ => 1
    | none => 0
  | fuel + 1, p, c :: rest =>
    match rMatchHere p (c :: rest) with
    | none => rCountGo fuel p rest
    | some 0 => 1 + rCountGo fuel p rest
    | some (k + 1) => 1 + rCountGo fuel p ((c :: rest).drop (k + 1))

/-- Number of matches of compiled pattern `p` in `s` under the `g` flag. -/
def rCount (p : List RElem) (s : List Char) : Nat := rCountGo (s.length + 1) p s

/-- `(content.match(new RegExp(word, 'g')) || []).length`: `none` models the
`SyntaxError` thrown by `new RegExp` on an invalid pattern. -/
def jsMatchCount (word content : JStr) : Option Nat :=
  (parseRegex word).map (fun p => rCount p content)

/-- A processed-corpus record (one entry of `processed_content.json`, shaped
by `DataProcessor.processData`). -/
structure Chunk where
  url : JStr
  title : JStr
  source : JStr
  chunkIndex : Nat
  totalChunks : Nat
  content : JStr
  contentLength : Nat
deriving DecidableEq

/-- The per-chunk score loop of `findRelevantChunks`: sum the match counts of
every query word in the lower-cased content; `none` when a word is an invalid
pattern (the exception propagates out of the loop). -/
def chunkScoreGo : List JStr → JStr → Option Nat
  | [], _ => some 0
  | w :: ws, content =>
    match jsMatchCount w content, chunkScoreGo ws content with
    | some n, some m => some (n + m)
    | _, _ => none

/-- The `scoredChunks` array of `findRelevantChunks`: every corpus chunk
paired with its score, in corpus order.  The query is lower-cased and split
on single spaces (`query.toLowerCase().split(' ')`). -/
def scoredList (corpus : List Chunk) (query : JStr) : Option (List (Chunk × Nat)) :=
  corpus.mapM (fun ch => (chunkScoreGo (splitChar ' ' (jsLower query)) (jsLower ch.content)).map (ch, ·))

/-- The comparator `(a, b) => b.score - a.score`: `a` may precede `b` when
`a`'s score is at least `b`'s. -/
def scoreGe (a b : Chunk × Nat) : Prop := b.2 ≤ a.2

instance : DecidableRel scoreGe := fun _ _ => Nat.decLe _ _

instance : IsTotal (Chunk × Nat) scoreGe := ⟨fun a b => Nat.le_total b.2 a.2⟩

instance : IsTrans (Chunk × Nat) scoreGe := ⟨fun _ _ _ h1 h2 => Nat.le_trans h2 h1⟩

/-- `AIAgent.findRelevantChunks(query, topK)` over a given corpus: score every
chunk, drop scores of zero, stable-sort descending (ES2019
`Array.prototype.sort` is stable; `List.insertionSort` inserts earlier
elements before equal later ones, hence is stable too), truncate to `topK`.
`none` models the `SyntaxError` thrown while scoring an invalid term. -/
def findRelevantChunks (corpus : List Chunk) (query : JStr) (topK : Nat) :
    Option (List (Chunk × Nat)) :=
  (scoredList corpus query).map
    (fun scored =>
      (((scored.filter (fun sc => decide (0 < sc.2))).insertionSort scoreGe).take topK))

/-- Spec-side definition, following the specification's words for comparison
with the code: the number of positions at which `w` occurs as a literal
substring of `s` (occurrences may overlap). -/
def occCount (w : JStr) : JStr → Nat
  | [] => if w.isEmpty then 1 else 0
  | c :: rest => (if leadsWith w (c :: rest) then 1 else 0) + occCount w rest

/-- Spec-side definition, following the specification's words: the sum over
the whitespace-split terms of the lower-cased query of the literal substring
occurrence counts in the lower-cased content. -/
def specLiteralScore (query content : JStr) : Nat :=
  (((splitRuns jsWsChar (jsLower query)).filter (fun w => !w.isEmpty)).map
    (fun w => occCount w (jsLower content))).sum

/-- Number of non-overlapping left-to-right occurrences of the literal word
`w` in `s` — the count a `g`-flag match produces for a metacharacter-free
word.  `fuel ≥ s.length + 1` is sufficient for non-empty `w`. -/
def literalCountGo : Nat → JStr → JStr → Nat
  | 0, _, _ => 0
  | _ + 1, _, [] => 0
  | fuel + 1, w, c :: rest =>
    if leadsWith w (c :: rest) then 1 + literalCountGo fuel w ((c :: rest).drop w.length)
    else literalCountGo fuel w rest

/-- Number of non-overlapping left-to-right occurrences of `w` in `s`. -/
def literalCount (w s : JStr) : Nat := literalCountGo (s.length + 1) w s

/-- A character that the regex engine treats as a literal: not a
metacharacter, quantifier, dot, or backslash. -/
def litSafeChar (c : Char) : Bool :=
  !rMeta c && !(c = '\\') && !(c = '.') && (rQuantOf c).isNone

/-!
`TelegramAIBot` (src/telegramBot.js).  The fixed regular expressions of
`detectQuestionType` and `handleGreeting` are translated pattern by pattern
into executable predicates; `.` never matches a line terminator, `.+` is
existential (the `test`/`match` truthiness only asks whether a match exists),
and a trailing `\??` is omitted because an optional atom at the end of a
pattern never affects match existence.
-/

/-- Does `s` start with at least one `.`-matchable character?  (The
translation of a trailing `.+` in a pattern.) -/
def headDot : JStr → Bool
  | [] => false
  | c :: _ => !isLineTerm c

/-- After one or more `.`-matchable characters have been consumed, can the
scan consume further `.` characters and then the literal `lit`?  (Worker for
`dotPlusThenLit`.) -/
def dotThenScan (lit : JStr) : JStr → Bool
  | [] => lit.isEmpty
  | c :: rest => leadsWith lit (c :: rest) || (!isLineTerm c && dotThenScan lit rest)

/-- The translation of `.+` followed by the literal `lit`: at least one
`.`-matchable character, then `lit`. -/
def dotPlusThenLit (lit : JStr) : JStr → Bool
  | [] => false
  | c :: rest => !isLineTerm c && dotThenScan lit rest

/-- Test a pattern starting with the literal `pre` and continuing with `k`
at the position after `pre`. -/
def withLead (pre : JStr) (k : JStr → Bool) (s : JStr) : Bool :=
  leadsWith pre s && k (s.drop pre.length)

/-- Does the (unanchored) predicate `p` hold at some suffix of `s`?  (The
translation of testing a regex with no `^` anchor.) -/
def anySuffix (p : JStr → Bool) : JStr → Bool
  | [] => p []
  | c :: rest => p (c :: rest) || anySuffix p rest

/-- The `simplePatterns` of `detectQuestionType`, tested on the lower-cased
query: `/^what is .+\??/`, `/^what\'?s .+\?/`, `/^tell me about .+/`,
`/^explain .+/`, `/^who is .+/`, `/^when is .+/`, `/^where is .+/`. -/
def simpleMatch (q : JStr) : Bool :=
  withLead "what is ".toList headDot q ||
  withLead "what's ".toList (dotPlusThenLit ['?']) q ||
  withLead "whats ".toList (dotPlusThenLit ['?']) q ||
  withLead "tell me about ".toList headDot q ||
  withLead "explain ".toList headDot q ||
  withLead "who is ".toList headDot q ||
  withLead "when is ".toList headDot q ||
  withLead "where is ".toList headDot q

/-- The `complexPatterns` of `detectQuestionType`, tested on the lower-cased
query: `/how to .+/`, `/how does .+ work/`, `/what is the difference between/`,
`/compare .+/`, `/why does .+/`, `/what are the steps/`, `/how do i .+/`
(all unanchored). -/
def complexMatch (q : JStr) : Bool :=
  anySuffix (withLead "how to ".toList headDot) q ||
  anySuffix (withLead "how does ".toList (dotPlusThenLit " work".toList)) q ||
  jsIncludes "what is the difference between".toList q ||
  anySuffix (withLead "compare ".toList headDot) q ||
  anySuffix (withLead "why does ".toList headDot) q ||
  jsIncludes "what are the steps".toList q ||
  anySuffix (withLead "how do i ".toList headDot) q

/-- The three question complexities. -/
inductive QType
  | simple
  | medium
  | complex
deriving DecidableEq

/-- `TelegramAIBot.detectQuestionType`: simple patterns first, then complex,
else medium. -/
def detectQuestionType (query : JStr) : QType :=
  let lq := jsLower query
  if simpleMatch lq then .simple
  else if complexMatch lq then .complex
  else .medium

/-- The `topK` selection `questionType === 'simple' ? 1 : questionType === 'medium' ? 2 : 3`. -/
def topKFor : QType → Nat
  | .simple => 1
  | .medium => 2
  | .complex => 3

/-- The `greetings` list of `handleGreeting`. -/
def greetingsList : List JStr :=
  ["hey", "hi", "hello", "hey there", "hi there", "heyy", "hii", "sup",
   "whats up", "yo"].map String.toList

/-- Lead phrases of the thanks regex `/^(thanks|thank you|thx|ty|appreciate it)/`. -/
def thanksLeads : List JStr :=
  ["thanks", "thank you", "thx", "ty", "appreciate it"].map String.toList

/-- Lead phrases of the goodbye regex `/^(bye|goodbye|see ya|later|cya)/`. -/
def byeLeads : List JStr :=
  ["bye", "goodbye", "see ya", "later", "cya"].map String.toList

/-- Lead phrases of `/^(how are you|how\'?s it going|what\'?s up|wassup)/`
with the optional apostrophes expanded. -/
def howLeads : List JStr :=
  ["how are you", "how's it going", "hows it going", "what's up", "whats up",
   "wassup"].map String.toList

/-- The canned greeting reply. -/
def greetHelloText : JStr :=
  "Hey! 👋\n\nI'm your Pepe Unchained assistant. Ask me anything about Pepe Unchained, like:\n• What is Pepe Unchained?\n• How do I stake tokens?\n• How to bridge funds?\n\nWhat would you like to know?".toList

/-- The canned thanks reply. -/
def greetThanksText : JStr :=
  "You're welcome! 😊\n\nFeel free to ask if you need anything else about Pepe Unchained!".toList

/-- The canned goodbye reply. -/
def greetByeText : JStr :=
  "See you later! 👋\n\nCome back anytime if you have questions about Pepe Unchained!".toList

/-- The canned how-are-you reply. -/
def greetHowText : JStr :=
  "I'm doing great, thanks for asking! 😊\n\nI'm here to help you learn about Pepe Unchained. What can I help you with today?".toList

/-- `TelegramAIBot.handleGreeting`: greetings, thanks, goodbye, how-are-you,
each tested on the lower-cased trimmed message, in that order. -/
def handleGreeting (message : JStr) : Option JStr :=
  let lm := jsTrim (jsLower message)
  if greetingsList.any (fun g => lm == g || leadsWith (g ++ [' ']) lm) then some greetHelloText
  else if thanksLeads.any (fun p => leadsWith p lm) then some greetThanksText
  else if byeLeads.any (fun p => leadsWith p lm) then some greetByeText
  else if howLeads.any (fun p => leadsWith p lm) then some greetHowText
  else none

/-- The `priceKeywords` of `isPriceQuestion`. -/
def priceKeywords : List JStr :=
  ["price", "pric", "cost", "worth", "value", "market cap", "marketcap", "mc",
   "market capitalization", "volume", "liquidity", "trading", "chart"].map String.toList

/-- The `pepuKeywords` of `isPriceQuestion`. -/
def pepuKeywords : List JStr :=
  ["pepu", "pepe unchained", "token"].map String.toList

/-- `TelegramAIBot.isPriceQuestion`. -/
def isPriceQuestion (text : JStr) : Bool :=
  let lt := jsLower text
  let hasPrice := priceKeywords.any (fun k => jsIncludes k lt)
  let hasPepu := pepuKeywords.any (fun k => jsIncludes k lt)
  hasPrice && (hasPepu || jsIncludes "what".toList lt || jsIncludes "how much".toList lt)

/-- `TelegramAIBot.isTokenQuestion`. -/
def isTokenQuestion (text : JStr) : Bool :=
  let lt := jsLower text
  (["token", "pepu", "price", "cost", "worth", "value", "trading", "market"].map
    String.toList).any (fun k => jsIncludes k lt)

/-- The `yesPatterns` of `isYesResponse`. -/
def yesLeads : List JStr :=
  ["yes", "yeah", "yep", "yup", "sure", "ok", "okay", "yea", "ya",
   "definitely", "absolutely"].map String.toList

/-- `TelegramAIBot.isYesResponse`: exact match or phrase + space prefix on the
lower-cased trimmed text. -/
def isYesResponse (text : JStr) : Bool :=
  let lt := jsTrim (jsLower text)
  yesLeads.any (fun p => lt == p || leadsWith (p ++ [' ']) lt)

/-- The `noPatterns` of `isNoResponse`. -/
def noLeads : List JStr :=
  ["no", "nope", "nah", "not really", "not interested"].map String.toList

/-- `TelegramAIBot.isNoResponse`. -/
def isNoResponse (text : JStr) : Bool :=
  let lt := jsTrim (jsLower text)
  noLeads.any (fun p => lt == p || leadsWith (p ++ [' ']) lt)

/-- The `questionIndicators` of `isNewQuestion`. -/
def questionIndicators : List JStr :=
  ["what", "how", "when", "where", "why", "who", "tell me", "explain",
   "can you", "do you"].map String.toList

/-- `TelegramAIBot.isNewQuestion`: a literal `?` anywhere in the raw text, or
an interrogative lead word on the lower-cased trimmed text. -/
def isNewQuestion (text : JStr) : Bool :=
  let lt := jsTrim (jsLower text)
  jsIncludes ['?'] text || questionIndicators.any (fun i => leadsWith i lt)

/-- The ordered `topics` list of `extractMainTopic`. -/
def topicsList : List JStr :=
  ["pepuscan", "block explorer", "explorer", "scan",
   "staking", "bridge", "pump pad", "pumppad",
   "fees", "gas", "transactions", "wallet", "trading",
   "roadmap", "features", "ecosystem", "applications",
   "dex", "blockchain", "network"].map String.toList

/-- The stop-word list of `extractMainTopic`'s noun-extraction fallback. -/
def questionWords : List JStr :=
  ["what", "how", "when", "where", "why", "who", "is", "are", "does", "do",
   "can", "will", "tell", "me", "about", "more", "use", "the", "on"].map String.toList

/-- The generic words dropped by the noun-extraction fallback. -/
def genericWords : List JStr :=
  ["token", "dex", "blockchain", "network", "pepe", "unchained"].map String.toList

/-- The topic-scan loop of `extractMainTopic`: `some r` means the loop
returned (`r = none` is the early `return null` for a generic topic of a
"how do i use" query); `none` means the loop fell through to noun
extraction. -/
def findTopicIn (lq la : JStr) : List JStr → Option (Option JStr)
  | [] => none
  | t :: ts =>
    if jsIncludes t lq || jsIncludes t la then
      some (if (["token", "dex", "blockchain"].map String.toList).contains t &&
               jsIncludes "how do i use".toList lq then none
            else some t)
    else findTopicIn lq la ts

/-- `TelegramAIBot.extractMainTopic(query, answer)`. -/
def extractMainTopic (query answer : JStr) : Option JStr :=
  let lq := jsLower query
  let la := jsLower answer
  match findTopicIn lq la topicsList with
  | some r => r
  | none =>
    let words := splitRuns jsWsChar (jsLower query)
    let filtered := words.filter (fun w => !questionWords.contains w && decide (3 < w.length))
    let specific := filtered.filter (fun w => !genericWords.contains w)
    specific.head?

/-- `TelegramAIBot.makeResponseConcise`: keep at most the first three
sentences of the answer. -/
def makeResponseConcise (answer : JStr) : JStr :=
  let sentences := (splitRuns isSentTerm answer).filter (fun s => decide (0 < (jsTrim s).length))
  if sentences.length ≤ 2 then jsTrim answer
  else
    let concise := jsTrim (List.intercalate ". ".toList (sentences.take 3))
    concise ++ (if concise.getLast? = some '.' then [] else ['.'])

/-!
The per-session conversation state machine (the `message` handler of
`TelegramAIBot.setupHandlers` together with `processQuery`).  All
context-map operations of the handler address only the sender's own
`chatId`, so the map entry of one session is modelled as an `Option Ctx`
(absent entry = `none`); the external collaborators reached during one
handling — the chat-completion call, the price client (already composed
with its floating-point formatting, which no claim inspects), and the
processed corpus read by the fallback path — are a parameter `Env`. -/

/-- One session's `ConversationContext` entry.  `askedTopics` starts
`undefined` in JavaScript and is lazily initialised to `[]`; since an empty
array and `undefined` behave identically in every use (`if (!askedTopics)`
and `includes`), it is modelled as a plain list with default `[]`. -/
structure Ctx where
  lastTopic : Option JStr := none
  lastQuestion : Option JStr := none
  waitingForFollowUp : Bool := false
  askedTopics : List JStr := []
deriving DecidableEq

/-- JavaScript truthiness of a possibly-absent string field. -/
def jsTruthyStr : Option JStr → Bool
  | none => false
  | some s => !s.isEmpty

/-- The handler's classification of a thrown error (the JavaScript code sniffs
`error.message`/`error.code` for quota markers and for
`'No processed data'`/`'ENOENT'`; the model carries the classification
directly, with the raw message kept for the generic branch). -/
inductive ErrKind
  | quota
  | missingKb
  | other (msg : JStr)
deriving DecidableEq

/-- The external collaborators of one message handling. -/
structure Env where
  /-- `aiAgent.queryWithRelevantContext(query, {…, topK}).answer`, or the
  thrown error. -/
  aiAnswer : JStr → Nat → Except ErrKind JStr
  /-- `formatPriceResponse(await priceAPI.getPEPUPrice())` of the price
  branch; `.error` models a rejected price fetch. -/
  priceMain : Except Unit JStr
  /-- `formatPriceInfoShort(await priceAPI.getPEPUPrice())` of the
  token-question blurb; `.error` models a rejected price fetch. -/
  priceShort : Except Unit JStr
  /-- The processed corpus read by the fallback path. -/
  corpus : List Chunk

/-- Which top-level branch of the message handler ran. -/
inductive BranchTag
  | skipped
  | greeting
  | yesFollowUp
  | noFollowUp
  | price
  | mainQuery
deriving DecidableEq

/-- The observable outcome of handling one message: the session's new context
entry, the messages sent in order, the query passed to `processQuery` (if
any), whether an error reached the catch block, and the branch taken. -/
structure HandleOut where
  state : Option Ctx
  sent : List JStr
  processed : Option JStr
  threw : Bool
  branch : BranchTag
deriving DecidableEq

/-- The topic-specific synthesized follow-up query of the yes-response branch
(`bridge` → `How do I bridge assets to Pepe Unchained?`, …), defaulting to
`Tell me more about {topic}`. -/
def followUpQueryFor (topic : JStr) : JStr :=
  if topic = "token".toList || topic = "pepu".toList then
    "What can I do with PEPU token?".toList
  else if topic = "staking".toList then "How do I stake PEPU tokens?".toList
  else if topic = "bridge".toList then "How do I bridge assets to Pepe Unchained?".toList
  else if topic = "dex".toList then "How do I use the DEX on Pepe Unchained?".toList
  else if topic = "explorer".toList || topic = "pepuscan".toList then
    "What is PepuScan and how do I use it?".toList
  else "Tell me more about ".toList ++ topic

/-- `TelegramAIBot.processQuery(chatId, query, context)`: ask the AI agent,
send the concise answer (with the short price blurb for token questions),
then either arm a follow-up offer or clear the session's context.  The
result is the session's new map entry and the messages sent; `.error` models
a thrown chat-completion error (nothing has been sent and the map is
untouched at that point).  `extractMainTopic` is pure, so the two identical
calls producing `currentTopic` and `followUpTopic` coincide and are taken
once. -/
def processQuery (ext : Env) (ctx : Ctx) (query : JStr) :
    Except ErrKind (Option Ctx × List JStr) :=
  let priceInfo : JStr :=
    if isTokenQuestion query then
      match ext.priceShort with
      | .ok s => s
      | .error _ => []
    else []
  let topK := topKFor (detectQuestionType query)
  match ext.aiAnswer query topK with
  | .error e => .error e
  | .ok answer =>
    let responseText :=
      if priceInfo.isEmpty then makeResponseConcise answer
      else makeResponseConcise answer ++ "\n\n".toList ++ priceInfo
    match extractMainTopic query answer with
    | none => .ok (none, [responseText])
    | some t =>
      let asked' := ctx.askedTopics ++ (if !t.isEmpty then [jsLower t] else [])
      if !t.isEmpty && decide (ctx.lastTopic ≠ some t) && !asked'.contains (jsLower t) &&
         !((["token", "dex", "blockchain", "network"].map String.toList).contains (jsLower t) &&
           (match ctx.lastQuestion with
            | some q => jsIncludes (jsLower t) (jsLower q)
            | none => false)) then
        .ok (some { lastTopic := some t, lastQuestion := some query,
                    waitingForFollowUp := true, askedTopics := asked' },
             [responseText, "Would you like to know more about ".toList ++ t ++ ['?']])
      else
        .ok (none, [responseText])

/-- `TelegramAIBot.getFallbackAnswer(query)`: answer straight from retrieval
when the generative call is unavailable; `none` covers both an empty
retrieval and a retrieval error caught by the internal `try`. -/
def getFallbackAnswer (ext : Env) (query : JStr) : Option JStr :=
  let topK := topKFor (detectQuestionType query)
  match findRelevantChunks ext.corpus query topK with
  | none => none
  | some [] => none
  | some (mainChunk :: restChunks) =>
    let body := mainChunk.1.content.take 800 ++
      (if 800 < mainChunk.1.content.length then "...".toList else [])
    let extra :=
      if restChunks.isEmpty then []
      else "*Additional Sources:*\n".toList ++
        (restChunks.enum.map
          (fun ic => (Nat.repr (ic.1 + 2)).toList ++ ". ".toList ++ ic.2.1.url ++ ['\n'])).flatten
    some ("📚 *Answer from Knowledge Base*\n\n".toList ++ body ++ "\n\n".toList ++
      "*Source:* ".toList ++ mainChunk.1.url ++ "\n\n".toList ++ extra)

/-- The quota-error message shown when the fallback also fails. -/
def quotaErrText : JStr :=
  "💳 *OpenAI API Quota Exceeded*\n\nYour OpenAI API quota has been exceeded.\n\n*To fix this:*\n1. Add billing: https://platform.openai.com/account/billing\n2. Check usage: https://platform.openai.com/usage\n\nSorry, fallback mode also failed. Please set up billing to continue.".toList

/-- The missing-knowledge-base message. -/
def missingKbText : JStr :=
  "📚 *Knowledge base not found!*\n\nThe bot needs to scrape and process the websites first.\n\nPlease run this command in your terminal:\n```\nnode index.js full\n```\n\nThis will:\n1. Scrape pepeunchained.com\n2. Scrape guide.pepeunchained.com\n3. Process the data\n\nOnce complete, you can ask me questions again! 🚀".toList

/-- The catch block of the message handler: quota errors attempt the fallback
before surfacing billing guidance; missing-knowledge-base errors surface setup
instructions; every other error surfaces its message.  No branch touches the
context map. -/
def catchMessages (ext : Env) (e : ErrKind) (text : JStr) : List JStr :=
  match e with
  | .quota =>
    match getFallbackAnswer ext text with
    | some fb =>
      ["💳 *Using Fallback Mode*\n\nOpenAI quota exceeded. Here's an answer from the knowledge base:\n\n".toList,
       fb,
       "\n\n💡 *To enable AI responses:*\nAdd billing: https://platform.openai.com/account/billing".toList]
    | none => [quotaErrText]
  | .missingKb => [missingKbText]
  | .other msg =>
    ["❌ Sorry, I encountered an error: ".toList ++ msg ++
     "\n\nPlease try again or contact the administrator.".toList]

/-- The no-response acknowledgement. -/
def noProblemText : JStr :=
  "No problem! Ask me anything else about Pepe Unchained. 😊".toList

/-- The fixed apology of the price branch's fetch-failure path. -/
def priceApologyText : JStr :=
  "❌ Sorry, I couldn't fetch the current PEPU price right now. Please try again later or check GeckoTerminal directly.".toList

/-- The `message` handler of `TelegramAIBot.setupHandlers` for one incoming
text `text` against the session's current context entry `st`: skip commands
and empty messages; greetings reset the context; a yes-response while a
follow-up is pending synthesizes the topic query, updates the context, and
processes it; a no-response clears the context; price questions are
answered from the price client; otherwise the text is processed as a query
(resetting the context first when it reads as a new question).  A thrown
processing error reaches the catch block, which sends messages but leaves
the context map exactly as the preceding code left it. -/
def handleMessage (ext : Env) (st : Option Ctx) (text : JStr) : HandleOut :=
  if leadsWith ['/'] text then ⟨st, [], none, false, .skipped⟩
  else if (jsTrim text).isEmpty then ⟨st, [], none, false, .skipped⟩
  else
    let ctx := st.getD {}
    match handleGreeting text with
    | some g => ⟨none, [g], none, false, .greeting⟩
    | none =>
      if isYesResponse text && ctx.waitingForFollowUp && jsTruthyStr ctx.lastTopic then
        let t := ctx.lastTopic.getD []
        let fq := followUpQueryFor t
        let ctx' : Ctx :=
          { ctx with waitingForFollowUp := false,
                     askedTopics := ctx.askedTopics ++ [jsLower t],
                     lastTopic := none }
        match processQuery ext ctx' fq with
        | .ok (st', msgs) => ⟨st', msgs, some fq, false, .yesFollowUp⟩
        | .error e => ⟨some ctx', catchMessages ext e text, some fq, true, .yesFollowUp⟩
      else if isNoResponse text && ctx.waitingForFollowUp then
        ⟨none, [noProblemText], none, false, .noFollowUp⟩
      else if isPriceQuestion text then
        match ext.priceMain with
        | .ok s => ⟨none, [s], none, false, .price⟩
        | .error _ => ⟨st, [priceApologyText], none, false, .price⟩
      else
        let st0 := if isNewQuestion text then none else st
        let ctx0 := if isNewQuestion text then {} else ctx
        match processQuery ext ctx0 text with
        | .ok (st', msgs) => ⟨st', msgs, some text, false, .mainQuery⟩
        | .error e => ⟨st0, catchMessages ext e text, some text, true, .mainQuery⟩

/-- Handle a sequence of messages for one session, starting from context
entry `st`; each step may see a different environment. -/
def runMessages (steps : List (Env × JStr)) (st : Option Ctx) : Option Ctx :=
  steps.foldl (fun s step => (handleMessage step.1 s step.2).state) st

/-- An environment whose chat completion always answers `ok.` and whose price
fetches fail. -/
def extOk : Env :=
  { aiAnswer := fun _ _ => .ok "ok.".toList
    priceMain := .error ()
    priceShort := .error ()
    corpus := [] }

/-- An environment whose chat completion always throws a generic error. -/
def extFail : Env :=
  { aiAnswer := fun _ _ => .error (.other "boom".toList)
    priceMain := .error ()
    priceShort := .error ()
    corpus := [] }

/-!  Concrete inputs used by the claim theorems. -/

/-- A single corpus chunk whose content is `pep`. -/
def chunkPep : Chunk :=
  { url := "https://pepeunchained.com/a".toList, title := "A".toList,
    source := "main".toList, chunkIndex := 0, totalChunks := 1,
    content := "pep".toList, contentLength := 3 }

/-- A corpus chunk containing the term `a` three times. -/
def chunkA3 : Chunk :=
  { url := "https://pepeunchained.com/3".toList, title := "T3".toList,
    source := "main".toList, chunkIndex := 0, totalChunks := 1,
    content := "a a a".toList, contentLength := 5 }

/-- A corpus chunk containing the term `a` once. -/
def chunkA1 : Chunk :=
  { url := "https://pepeunchained.com/1".toList, title := "T1".toList,
    source := "main".toList, chunkIndex := 0, totalChunks := 1,
    content := "b a b".toList, contentLength := 5 }

/-- A corpus chunk containing the term `a` zero times. -/
def chunkA0 : Chunk :=
  { url := "https://pepeunchained.com/0".toList, title := "T0".toList,
    source := "main".toList, chunkIndex := 0, totalChunks := 1,
    content := "b b b".toList, contentLength := 5 }

/-- A session context with a pending `bridge` follow-up offer. -/
def ctxWaitBridge : Ctx :=
  { lastTopic := some "bridge".toList,
    lastQuestion := some "How do I bridge funds?".toList,
    waitingForFollowUp := true, askedTopics := [] }

/-- A session context with a pending `staking` follow-up offer. -/
def ctxWaitStaking : Ctx :=
  { lastTopic := some "staking".toList,
    lastQuestion := some "tell me about staking".toList,
    waitingForFollowUp := true, askedTopics := [] }

/-- A document of two sentence units (9 and 10 characters). -/
def textC9 : JStr := "aa bb cc. ddddd ee.".toList

/-- The compiled form of a metacharacter-free word: each character is a
literal atom with no quantifier. -/
def litPat (w : JStr) : List RElem := w.map (fun c => (RAtom.ch c, RQuant.one))

/-!  Claim theorems and their supporting lemmas. -/

/-- C1: evaluating the handler on the failing input — the two-message sequence
`["How do I bridge funds?", "yes"]` on a fresh session.  The first message
leaves no context entry (the extracted topic `bridge` is pushed into
`askedTopics` before the already-asked check, so no follow-up offer is armed),
hence the second message is processed by the main-query branch as the plain
query `yes`, not as the synthesized `How do I bridge assets to Pepe
Unchained?`. -/
theorem C1_bridge_yes_roundtrip_fails :
    (handleMessage extOk none "How do I bridge funds?".toList).state = none ∧
    (handleMessage extOk
        ((handleMessage extOk none "How do I bridge funds?".toList).state)
        "yes".toList).processed = some "yes".toList ∧
    (handleMessage extOk
        ((handleMessage extOk none "How do I bridge funds?".toList).state)
        "yes".toList).branch = .mainQuery ∧
    ("yes".toList : JStr) ≠ "How do I bridge assets to Pepe Unchained?".toList :=
  ⟨rfl, rfl, rfl, by decide⟩

/-- C2: evaluating the handler at an input meeting every condition of the
claim — fresh context (`askedTopics = []`, no `lastTopic`), a non-price
non-greeting question whose extracted topic `staking` is non-empty, new, and
not generic — yet the handler sends no follow-up offer and clears the
context: `processQuery` pushes the topic into `askedTopics` before testing
membership, so the offer branch cannot run. -/
theorem C2_followup_offer_never_sent :
    extractMainTopic "tell me about staking".toList "ok.".toList = some "staking".toList ∧
    ({} : Ctx).askedTopics = [] ∧
    ({} : Ctx).lastTopic = none ∧
    isPriceQuestion "tell me about staking".toList = false ∧
    handleGreeting "tell me about staking".toList = none ∧
    (handleMessage extOk none "tell me about staking".toList).state = none ∧
    (handleMessage extOk none "tell me about staking".toList).sent =
      [makeResponseConcise "ok.".toList] :=
  ⟨rfl, rfl, rfl, rfl, rfl, rfl, rfl⟩

/-- C4 counterexample: a handling that fails mid-way does not leave the
context entry unchanged — with a pending bridge follow-up, the message `yes`
first applies the yes-branch context update (clear the waiting flag, push the
topic, clear `lastTopic`) and only then reaches the failing generation call;
the catch block does not restore the prior entry. -/
theorem C4_failed_handling_mutates_context :
    (handleMessage extFail (some ctxWaitBridge) "yes".toList).threw = true ∧
    (handleMessage extFail (some ctxWaitBridge) "yes".toList).state ≠ some ctxWaitBridge :=
  ⟨rfl, by decide⟩

/-- C5 counterexample: a price question handled while a follow-up offer is
pending, with a failing price fetch — the fixed apology is sent but the
context entry is not deleted, so the session does not end with
`waitingForFollowUp` cleared (the failure path has no
`conversationContext.delete`). -/
theorem C5_price_failure_keeps_context :
    isPriceQuestion "pepu price".toList = true ∧
    (handleMessage extOk (some ctxWaitStaking) "pepu price".toList).sent = [priceApologyText] ∧
    (handleMessage extOk (some ctxWaitStaking) "pepu price".toList).state = some ctxWaitStaking ∧
    ctxWaitStaking.waitingForFollowUp = true :=
  ⟨rfl, rfl, rfl, rfl⟩

/-- C6 counterexample: the query `pepu?` against a chunk whose content is
`pep` — the code compiles the term as the pattern `/pepu?/g` and scores the
chunk 1, while the sum of literal substring occurrence counts of the term is
0 (so under the claimed semantics the chunk would not even be returned). -/
theorem C6_score_not_literal_occurrences :
    findRelevantChunks [chunkPep] "pepu?".toList 5 = some [(chunkPep, 1)] ∧
    specLiteralScore "pepu?".toList chunkPep.content = 0 :=
  ⟨rfl, rfl⟩

/-- C7: `findRelevantChunks` is not total over queries — the single-term
queries `?`, `(` and `*` make `new RegExp(term, 'g')` throw a `SyntaxError`
(modelled as `none`) instead of producing a scored result, and a term with a
metacharacter such as `pepu?` is matched as a regex pattern (scoring 1 on the
content `pep`) rather than as a literal substring (0 occurrences). -/
theorem C7_regex_construction_unsafe :
    findRelevantChunks [chunkPep] "?".toList 5 = none ∧
    findRelevantChunks [chunkPep] "(".toList 5 = none ∧
    findRelevantChunks [chunkPep] "*".toList 5 = none ∧
    findRelevantChunks [chunkPep] "pepu?".toList 5 = some [(chunkPep, 1)] ∧
    occCount "pepu?".toList (jsLower chunkPep.content) = 0 :=
  ⟨rfl, rfl, rfl, rfl, rfl⟩

/-- C9 counterexample: with `maxSize = 10` and `overlapHint = 20`, the
document `aa bb cc. ddddd ee.` produces the chunk `bb cc.  ddddd ee.` of
length 17 — above the bound — although every sentence unit of the document
has length at most 10, so the chunk is not an oversized atomic sentence
unit: the overlap seed prepended to a sentence can push a chunk past
`maxSize`. -/
theorem C9_overlap_seed_breaks_bound :
    ∃ c ∈ chunkText textC9 10 20, 10 < c.length ∧
      ∀ u ∈ sentenceUnits textC9, u.length ≤ 10 := by decide

theorem processQuery_ok_fst (ext : Env) (ctx : Ctx) (q : JStr) (r : Option Ctx × List JStr)
    (h : processQuery ext ctx q = .ok r) : r.1 = none := by
  simp only [processQuery] at h
  cases hai : ext.aiAnswer q (topKFor (detectQuestionType q)) with
  | error e =>
    rw [hai] at h
    exact absurd h (by simp)
  | ok answer =>
    rw [hai] at h
    dsimp only at h
    cases htp : extractMainTopic q answer with
    | none =>
      rw [htp] at h
      dsimp only at h
      injection h with h2
      rw [← h2]
    | some t =>
      rw [htp] at h
      dsimp only at h
      split at h
      · split at h
        · rename_i hcond
          exfalso
          simp [List.contains, List.elem_eq_mem] at hcond
        · injection h with h2
          rw [← h2]
      · rename_i hne
        simp only [Bool.not_eq_true, Bool.not_eq_false] at hne
        split at h
        · rename_i hcond
          exfalso
          simp [hne] at hcond
        · injection h with h2
          rw [← h2]

theorem handleMessage_none_state (ext : Env) (m : JStr) :
    (handleMessage ext none m).state = none := by
  simp only [handleMessage, Option.getD_none]
  simp only [Bool.and_false, Bool.false_and, Bool.false_eq_true, if_false, ite_self]
  split
  · rfl
  · split
    · rfl
    · split
      · rfl
      · split
        · split
          · rfl
          · rfl
        · split
          · rename_i st' msgs heq
            exact processQuery_ok_fst ext _ m (st', msgs) heq
          · rfl

theorem runMessages_none (steps : List (Env × JStr)) : runMessages steps none = none := by
  induction steps with
  | nil => rfl
  | cons s rest ih =>
    show runMessages rest ((handleMessage s.1 none s.2).state) = none
    rw [handleMessage_none_state]
    exact ih

theorem handleMessage_none_branch (ext : Env) (m : JStr) :
    (handleMessage ext none m).branch ≠ .yesFollowUp ∧
    (handleMessage ext none m).branch ≠ .noFollowUp := by
  simp only [handleMessage, Option.getD_none]
  simp only [Bool.and_false, Bool.false_and, Bool.false_eq_true, if_false, ite_self]
  split
  · exact ⟨by simp, by simp⟩
  · split
    · exact ⟨by simp, by simp⟩
    · split
      · exact ⟨by simp, by simp⟩
      · split
        · split
          · exact ⟨by simp, by simp⟩
          · exact ⟨by simp, by simp⟩
        · split
          · exact ⟨by simp, by simp⟩
          · exact ⟨by simp, by simp⟩

/-- C3: over every message sequence handled from the initial (absent) context,
the session's entry is `none` after every step — so no reachable state has
`waitingForFollowUp = true`.  The root cause is in `processQuery`: the
extracted topic is pushed into `askedTopics` before the already-asked check,
so a successful `processQuery` always returns an absent entry (second
conjunct), the offer branch that sets `waitingForFollowUp` is unreachable,
and consequently the yes-response and no-response branches of the handler
never fire from a reachable state (third conjunct). -/
theorem C3_followup_branches_unreachable :
    (∀ steps : List (Env × JStr), runMessages steps none = none) ∧
    (∀ (ext : Env) (ctx : Ctx) (q : JStr) (r : Option Ctx × List JStr),
        processQuery ext ctx q = .ok r → r.1 = none) ∧
    (∀ (ext : Env) (m : JStr), (handleMessage ext none m).branch ≠ .yesFollowUp ∧
        (handleMessage ext none m).branch ≠ .noFollowUp) :=
  ⟨runMessages_none, processQuery_ok_fst, handleMessage_none_branch⟩

/-- C3 witness: the second conjunct applied at a concrete successful call. -/
theorem C3_followup_branches_unreachable_witness :
    runMessages [(extOk, "How do I bridge funds?".toList), (extOk, "yes".toList)] none = none ∧
    ((none : Option Ctx), [makeResponseConcise "ok.".toList]).1 = none :=
  ⟨C3_followup_branches_unreachable.1 _,
   C3_followup_branches_unreachable.2.1 extOk {} "tell me about staking".toList
     (none, [makeResponseConcise "ok.".toList]) rfl⟩

/-- C4 amended: the catch block itself never mutates the context map, and
from every reachable pre-state (the map entry is always absent, by C3's
invariant) a handling that fails leaves the entry exactly as it was
(absent).  What fails in the original claim is only the roll-back of
mutations made earlier in the same handling (the new-question reset and the
yes-branch update), which can matter only for unreachable pre-states. -/
theorem C4_amended_failed_handling_from_reachable (ext : Env) (m : JStr)
    (_h : (handleMessage ext none m).threw = true) :
    (handleMessage ext none m).state = none :=
  handleMessage_none_state ext m

/-- C4 witness: a concrete failing handling from the reachable (absent)
pre-state leaves the entry absent. -/
theorem C4_amended_failed_handling_from_reachable_witness :
    (handleMessage extFail none "tell me about staking".toList).threw = true ∧
    (handleMessage extFail none "tell me about staking".toList).state = none :=
  ⟨rfl, C4_amended_failed_handling_from_reachable extFail "tell me about staking".toList rfl⟩

/-- C5 amended: for every message that reaches the price branch (it is a
price question, not a greeting, not a yes/no reply consumed by a pending
follow-up, not a command, not blank): on fetch success the formatted price
response is sent and the context entry is deleted; on fetch failure the fixed
apology is sent and the context entry is left untouched (the failure path has
no delete) — so from any reachable pre-state (entry absent) the session still
ends with no pending follow-up in both cases. -/
theorem C5_amended_price_branch (ext : Env) (st : Option Ctx) (m : JStr)
    (hp : isPriceQuestion m = true)
    (hg : handleGreeting m = none)
    (hs : leadsWith ['/'] m = false)
    (ht : (jsTrim m).isEmpty = false)
    (hy : (isYesResponse m && (st.getD {}).waitingForFollowUp &&
            jsTruthyStr (st.getD {}).lastTopic) = false)
    (hn : (isNoResponse m && (st.getD {}).waitingForFollowUp) = false) :
    (∀ s, ext.priceMain = .ok s →
        (handleMessage ext st m).state = none ∧ (handleMessage ext st m).sent = [s]) ∧
    (ext.priceMain = .error () →
        (handleMessage ext st m).state = st ∧
        (handleMessage ext st m).sent = [priceApologyText]) := by
  constructor
  · intro s hsome
    simp only [handleMessage, hs, ht, hg, hy, hn, hp, hsome, Bool.false_eq_true, if_false]
    simp
  · intro herr
    simp only [handleMessage, hs, ht, hg, hy, hn, hp, herr, Bool.false_eq_true, if_false]
    simp

/-- C5 witness: the fetch-failure conclusion at a concrete input. -/
theorem C5_amended_price_branch_witness :
    (handleMessage extOk (some ctxWaitStaking) "pepu price".toList).state =
      some ctxWaitStaking ∧
    (handleMessage extOk (some ctxWaitStaking) "pepu price".toList).sent =
      [priceApologyText] :=
  (C5_amended_price_branch extOk (some ctxWaitStaking) "pepu price".toList
    (by decide) (by decide) (by decide) (by decide) (by decide) (by decide)).2 rfl

/-- C10: `detectQuestionType` tests the simple patterns on the lower-cased
query first (a query matching both a simple and a complex pattern classifies
as simple), then the complex patterns, and returns medium when neither
matches; `What is PEPU?` is simple, `How do I stake PEPU tokens?` is complex,
and `Tell me about staking options` is simple. -/
theorem C10_classifier_precedence :
    (∀ q : JStr, simpleMatch (jsLower q) = true → detectQuestionType q = .simple) ∧
    (∀ q : JStr, simpleMatch (jsLower q) = false → complexMatch (jsLower q) = true →
        detectQuestionType q = .complex) ∧
    (∀ q : JStr, simpleMatch (jsLower q) = false → complexMatch (jsLower q) = false →
        detectQuestionType q = .medium) ∧
    detectQuestionType "What is PEPU?".toList = .simple ∧
    detectQuestionType "How do I stake PEPU tokens?".toList = .complex ∧
    detectQuestionType "Tell me about staking options".toList = .simple := by
  refine ⟨?_, ?_, ?_, rfl, rfl, rfl⟩
  · intro q hs
    simp [detectQuestionType, hs]
  · intro q hs hc
    simp [detectQuestionType, hs, hc]
  · intro q hs hc
    simp [detectQuestionType, hs, hc]

/-- C10 witness: a query matching both a simple and a complex pattern —
`what is the difference between staking and bridging` — classifies as
simple by the precedence rule. -/
theorem C10_classifier_precedence_witness :
    simpleMatch (jsLower "what is the difference between staking and bridging".toList) = true ∧
    complexMatch (jsLower "what is the difference between staking and bridging".toList) = true ∧
    detectQuestionType "what is the difference between staking and bridging".toList = .simple :=
  ⟨rfl, rfl,
   C10_classifier_precedence.1 "what is the difference between staking and bridging".toList rfl⟩

theorem jsTrim_length_le (s : JStr) : (jsTrim s).length ≤ s.length := by
  unfold jsTrim
  calc (((s.dropWhile jsWsChar).reverse.dropWhile jsWsChar).reverse).length
      = ((s.dropWhile jsWsChar).reverse.dropWhile jsWsChar).length := List.length_reverse _
    _ ≤ (s.dropWhile jsWsChar).reverse.length := (List.dropWhile_sublist _).length_le
    _ = (s.dropWhile jsWsChar).length := List.length_reverse _
    _ ≤ s.length := (List.dropWhile_sublist _).length_le

theorem chunkTextGo_mem (maxSize overlap : Nat) (U L : List JStr) :
    ∀ (ss : List JStr) (cur : JStr),
    (∀ s ∈ ss, s ∈ U) →
    (∀ c ∈ chunkTextGo maxSize overlap ss cur, c ∈ L) →
    (cur = [] ∨ cur.length ≤ maxSize ∨
      ∃ pre u, u ∈ U ∧ cur = pre ++ u ∧
        (pre = [] ∨ ∃ prev, pre = overlapSeed prev overlap ++ [' '] ∧ jsTrim prev ∈ L)) →
    ∀ c ∈ chunkTextGo maxSize overlap ss cur,
      c.length ≤ maxSize ∨
      ∃ pre u, u ∈ U ∧ c = jsTrim (pre ++ u) ∧
        (pre = [] ∨ ∃ prev, pre = overlapSeed prev overlap ++ [' '] ∧ jsTrim prev ∈ L) := by
  intro ss
  induction ss with
  | nil =>
    intro cur _ _ hinv c hc
    simp only [chunkTextGo] at hc
    split at hc
    · simp at hc
    · simp only [List.mem_singleton] at hc
      subst hc
      rcases hinv with h0 | hle | ⟨pre, u, hu, hcur, hpre⟩
      · subst h0
        left
        simp [jsTrim]
      · left
        exact le_trans (jsTrim_length_le cur) hle
      · right
        exact ⟨pre, u, hu, by rw [hcur], hpre⟩
  | cons s rest ih =>
    intro cur hss hL hinv c hc
    simp only [chunkTextGo] at hc hL
    by_cases hcond : ((cur ++ s).length > maxSize && !cur.isEmpty) = true
    · rw [if_pos hcond] at hc hL
      rcases List.mem_cons.mp hc with hceq | hcmem
      · subst hceq
        simp only [Bool.and_eq_true, decide_eq_true_eq, Bool.not_eq_true',
          List.isEmpty_eq_false] at hcond
        rcases hinv with h0 | hle | ⟨pre, u, hu, hcur, hpre⟩
        · exact absurd h0 hcond.2
        · left
          exact le_trans (jsTrim_length_le cur) hle
        · right
          exact ⟨pre, u, hu, by rw [hcur], hpre⟩
      · refine ih (overlapSeed cur overlap ++ [' '] ++ s)
          (fun x hx => hss x (List.mem_cons_of_mem s hx))
          (fun x hx => hL x (List.mem_cons_of_mem _ hx))
          (Or.inr (Or.inr ⟨overlapSeed cur overlap ++ [' '], s,
            hss s (List.mem_cons_self s rest), rfl,
            Or.inr ⟨cur, rfl, hL (jsTrim cur) (List.mem_cons_self _ _)⟩⟩)) c hcmem
    · rw [if_neg hcond] at hc hL
      refine ih (cur ++ s) (fun x hx => hss x (List.mem_cons_of_mem s hx)) hL ?_ c hc
      simp only [Bool.and_eq_true, decide_eq_true_eq, Bool.not_eq_true',
        List.isEmpty_eq_false, not_and, not_lt] at hcond
      by_cases hlen : (cur ++ s).length ≤ maxSize
      · exact Or.inr (Or.inl hlen)
      · have h0 : cur = [] := not_not.mp (hcond (Nat.lt_of_not_le hlen))
        subst h0
        exact Or.inr (Or.inr ⟨[], s, hss s (List.mem_cons_self s rest), rfl, Or.inl rfl⟩)

/-- C9 amended: every chunk `chunkText` returns has length at most `maxSize`,
except a chunk that is the trim of a single sentence unit preceded only by
the overlap seed (the last `overlap / 10` space-separated words, joined, plus
the joining space) computed from the buffer of a previously emitted chunk —
or by nothing at all.  So the bound can be exceeded only by the seed's length
in front of one unit, and an oversized unit is held whole (no forced
truncation).  A chunk built from two or more appended units never satisfies
the exception shape (its prefix before the last unit ends with a sentence
terminator, not with the seed's joining space), and indeed such chunks are
always within the bound by the loop's guard. -/
theorem C9_amended_chunk_bound (text : JStr) (maxSize overlap : Nat) (c : JStr)
    (hc : c ∈ chunkText text maxSize overlap) :
    c.length ≤ maxSize ∨
    ∃ pre u, u ∈ sentenceUnits text ∧ c = jsTrim (pre ++ u) ∧
      (pre = [] ∨ ∃ prev, pre = overlapSeed prev overlap ++ [' '] ∧
        jsTrim prev ∈ chunkText text maxSize overlap) :=
  chunkTextGo_mem maxSize overlap (sentenceUnits text) (chunkText text maxSize overlap)
    (sentenceUnits text) [] (fun _ hx => hx) (fun _ h => h) (Or.inl rfl) c hc

/-- C9 witness: the amended bound at the oversized chunk of the
counterexample document — the chunk exceeds the bound, so it decomposes as
the seed `bb cc.` plus the joining space in front of the single sentence
unit ` ddddd ee.`. -/
theorem C9_amended_chunk_bound_witness :
    "bb cc.  ddddd ee.".toList ∈ chunkText textC9 10 20 ∧
    ("bb cc.  ddddd ee.".toList.length ≤ 10 ∨
      ∃ pre u, u ∈ sentenceUnits textC9 ∧
        "bb cc.  ddddd ee.".toList = jsTrim (pre ++ u) ∧
        (pre = [] ∨ ∃ prev, pre = overlapSeed prev 20 ++ [' '] ∧
          jsTrim prev ∈ chunkText textC9 10 20)) :=
  ⟨by decide, C9_amended_chunk_bound textC9 10 20 "bb cc.  ddddd ee.".toList (by decide)⟩

theorem rLex_lit (w : JStr) (h : ∀ c ∈ w, litSafeChar c = true) :
    rLex w = some (w.map (fun c => RTok.atom (RAtom.ch c))) := by
  induction w with
  | nil => rfl
  | cons c w ih =>
    have hc := h c (List.mem_cons_self c w)
    simp only [litSafeChar, Bool.and_eq_true, Bool.not_eq_true', Option.isNone_iff_eq_none,
      decide_eq_false_iff_not] at hc
    obtain ⟨⟨⟨hmeta, hbs⟩, hdot⟩, hq⟩ := hc
    have hstep : rLex (c :: w) = (rLex w).map (fun ts => RTok.atom (RAtom.ch c) :: ts) := by
      conv_lhs => rw [rLex.eq_def]
      dsimp only
      rw [if_neg hbs, hq]
      dsimp only
      rw [if_neg hdot, hmeta]
      simp
    rw [hstep, ih (fun d hd => h d (List.mem_cons_of_mem c hd))]
    rfl

theorem rGroup_atoms (w : JStr) :
    rGroup (w.map (fun c => RTok.atom (RAtom.ch c))) = some (litPat w) := by
  induction w with
  | nil => rfl
  | cons c w ih =>
    cases w with
    | nil => rfl
    | cons d w' =>
      calc rGroup ((c :: d :: w').map (fun c => RTok.atom (RAtom.ch c)))
          = (rGroup ((d :: w').map (fun c => RTok.atom (RAtom.ch c)))).map
              (fun es => (RAtom.ch c, RQuant.one) :: es) := rfl
        _ = some (litPat (c :: d :: w')) := by rw [ih]; rfl

theorem parseRegex_lit (w : JStr) (h : ∀ c ∈ w, litSafeChar c = true) :
    parseRegex w = some (litPat w) := by
  unfold parseRegex
  rw [rLex_lit w h]
  simpa using rGroup_atoms w

theorem litPat_nil : litPat [] = [] := rfl

theorem litPat_cons (c : Char) (w : JStr) :
    litPat (c :: w) = (RAtom.ch c, RQuant.one) :: litPat w := rfl

theorem rMatchHereGo_lit (w : JStr) :
    ∀ (fuel : Nat) (s : JStr), w.length < fuel →
    rMatchHereGo fuel (litPat w) s =
      if leadsWith w s = true then some w.length else none := by
  induction w with
  | nil =>
    intro fuel s hf
    cases fuel with
    | zero => omega
    | succ f => simp [rMatchHereGo, litPat_nil, leadsWith]
  | cons c w ih =>
    intro fuel s hf
    cases fuel with
    | zero => omega
    | succ f =>
      have hlt : w.length < f := by
        simpa using Nat.lt_of_succ_lt_succ hf
      cases s with
      | nil => simp [rMatchHereGo, litPat_cons, leadsWith]
      | cons d s' =>
        have ihs := ih f s' hlt
        simp only [litPat] at ihs
        by_cases hdc : d = c
        · by_cases hlw : leadsWith w s' = true
          · simp [rMatchHereGo, litPat_cons, rAtomM, hdc, hlw, ihs, leadsWith]
          · simp only [Bool.not_eq_true] at hlw
            simp [rMatchHereGo, litPat_cons, rAtomM, hdc, hlw, ihs, leadsWith]
        · have hcd : ¬c = d := fun hh => hdc hh.symm
          simp [rMatchHereGo, litPat_cons, rAtomM, hdc, hcd, leadsWith]

theorem rCountGo_lit (w : JStr) (hw : w ≠ []) :
    ∀ (fuel : Nat) (s : JStr), rCountGo fuel (litPat w) s = literalCountGo fuel w s := by
  obtain ⟨a, w', rfl⟩ : ∃ a w', w = a :: w' := by
    cases w with
    | nil => exact absurd rfl hw
    | cons a w' => exact ⟨a, w', rfl⟩
  have hmh : ∀ t : JStr, rMatchHere (litPat (a :: w')) t =
      if leadsWith (a :: w') t = true then some (a :: w').length else none := by
    intro t
    refine rMatchHereGo_lit (a :: w') _ t ?_
    simp [litPat, rMatchHere]
    omega
  intro fuel
  induction fuel with
  | zero => intro s; rfl
  | succ f ih =>
    intro s
    cases s with
    | nil =>
      have hl : leadsWith (a :: w') [] = false := rfl
      simp [rCountGo, literalCountGo, hmh, hl]
    | cons d s' =>
      by_cases hpre : leadsWith (a :: w') (d :: s') = true
      · simp [rCountGo, literalCountGo, hmh, hpre, ih]
      · simp only [Bool.not_eq_true] at hpre
        simp [rCountGo, literalCountGo, hmh, hpre, ih]

theorem jsMatchCount_lit (w content : JStr) (hw : w ≠ [])
    (h : ∀ c ∈ w, litSafeChar c = true) :
    jsMatchCount w content = some (literalCount w content) := by
  unfold jsMatchCount rCount literalCount
  rw [parseRegex_lit w h]
  simp only [Option.map_some']
  exact congrArg some (rCountGo_lit w hw (content.length + 1) content)

theorem chunkScoreGo_lit (content : JStr) :
    ∀ ws : List JStr, (∀ w ∈ ws, w ≠ [] ∧ ∀ c ∈ w, litSafeChar c = true) →
    chunkScoreGo ws content = some ((ws.map (fun w => literalCount w content)).sum) := by
  intro ws
  induction ws with
  | nil => intro _; rfl
  | cons w ws ih =>
    intro h
    obtain ⟨hw, hsafe⟩ := h w (List.mem_cons_self w ws)
    simp [chunkScoreGo, jsMatchCount_lit w content hw hsafe,
      ih (fun x hx => h x (List.mem_cons_of_mem w hx))]

/-- C6 amended: for a query all of whose terms (the lower-cased query split on
single spaces) are non-empty and free of regex metacharacters, every corpus
chunk's relevance score equals the sum, over the terms, of the number of
non-overlapping left-to-right literal occurrences of the term in the
lower-cased chunk content (a natural number, hence non-negative).  For other
queries the code deviates from the claim: terms are interpreted as regex
patterns (see the counterexample) and invalid patterns throw. -/
theorem C6_amended_literal_scoring (corpus : List Chunk) (query : JStr)
    (h : ∀ w ∈ splitChar ' ' (jsLower query), w ≠ [] ∧ ∀ c ∈ w, litSafeChar c = true) :
    scoredList corpus query = some (corpus.map (fun ch =>
      (ch, ((splitChar ' ' (jsLower query)).map
        (fun w => literalCount w (jsLower ch.content))).sum))) := by
  unfold scoredList
  induction corpus with
  | nil => rfl
  | cons ch rest ih =>
    rw [List.mapM_cons, chunkScoreGo_lit (jsLower ch.content) _ h, ih]
    rfl

/-- C6 witness: the amended scoring at a concrete metacharacter-free query. -/
theorem C6_amended_literal_scoring_witness :
    (∀ w ∈ splitChar ' ' (jsLower "pepu price".toList),
        w ≠ [] ∧ ∀ c ∈ w, litSafeChar c = true) ∧
    scoredList [chunkPep] "pepu price".toList = some ([chunkPep].map (fun ch =>
      (ch, ((splitChar ' ' (jsLower "pepu price".toList)).map
        (fun w => literalCount w (jsLower ch.content))).sum))) :=
  ⟨by decide, C6_amended_literal_scoring [chunkPep] "pepu price".toList (by decide)⟩

theorem filter_orderedInsert (x : Chunk × Nat) (n : Nat) :
    ∀ t : List (Chunk × Nat),
      (List.orderedInsert scoreGe x t).filter (fun y => y.2 == n) =
      if x.2 = n then x :: t.filter (fun y => y.2 == n)
      else t.filter (fun y => y.2 == n) := by
  intro t
  induction t with
  | nil =>
    by_cases hx : x.2 = n
    · have hb : (x.2 == n) = true := by simp [hx]
      simp [List.orderedInsert, List.filter, hx, hb]
    · have hb : (x.2 == n) = false := by simp [hx]
      simp [List.orderedInsert, List.filter, hx, hb]
  | cons y t ih =>
    simp only [List.orderedInsert]
    split
    · by_cases hx : x.2 = n <;> simp [List.filter_cons, hx]
    · rename_i hnr
      have hxy : x.2 < y.2 := Nat.lt_of_not_le (fun hle => hnr hle)
      by_cases hx : x.2 = n
      · have hyn : (y.2 == n) = false := by
          simp only [beq_eq_false_iff_ne, ne_eq]
          omega
        simp [List.filter_cons, hyn, ih, hx]
      · simp [List.filter_cons, ih, hx]

theorem filter_insertionSort (n : Nat) :
    ∀ xs : List (Chunk × Nat),
      (List.insertionSort scoreGe xs).filter (fun y => y.2 == n) =
      xs.filter (fun y => y.2 == n) := by
  intro xs
  induction xs with
  | nil => rfl
  | cons x xs ih =>
    simp only [List.insertionSort]
    rw [filter_orderedInsert]
    by_cases hx : x.2 = n
    · have hb : (x.2 == n) = true := by simp [hx]
      simp [List.filter_cons, hb, ih, hx]
    · have hb : (x.2 == n) = false := by simp [hx]
      simp [List.filter_cons, hb, ih, hx]

theorem filter_take_isPrefix (p : Chunk × Nat → Bool) :
    ∀ (k : Nat) (l : List (Chunk × Nat)), (l.take k).filter p <+: l.filter p := by
  intro k l
  induction l generalizing k with
  | nil => simp
  | cons x l ih =>
    cases k with
    | zero => simp
    | succ k =>
      simp only [List.take_succ_cons, List.filter_cons]
      by_cases hp : p x = true
      · simp only [hp, if_true]
        obtain ⟨t, ht⟩ := ih k
        exact ⟨t, by rw [List.cons_append, ht]⟩
      · simp only [Bool.not_eq_true] at hp
        simp only [hp, Bool.false_eq_true, if_false]
        exact ih k

/-- C8: a successful `findRelevantChunks(query, topK)` call returns at most
`topK` entries, all with positive score, ordered by descending score; exactly
`min topK n` entries are returned where `n` is the number of positive-score
chunks; and ties are broken by corpus order (for every fixed score, the
result's entries of that score form a prefix of the positive-score entries of
that score in corpus order — the stable-sort property).  Concretely: with
`topK = 2` over chunks containing the single query term 0, 1 and 3 times, the
3-occurrence chunk outranks the 1-occurrence chunk and the 0-occurrence chunk
is excluded; with only one positive-score chunk, exactly one entry is
returned. -/
theorem C8_retrieval_contract :
    (∀ (corpus : List Chunk) (query : JStr) (k : Nat) (l : List (Chunk × Nat)),
        findRelevantChunks corpus query k = some l →
        l.length ≤ k ∧
        (∀ x ∈ l, 0 < x.2) ∧
        List.Pairwise scoreGe l ∧
        (∀ sc, scoredList corpus query = some sc →
          l.length = min k ((sc.filter (fun x => decide (0 < x.2))).length) ∧
          ∀ n : Nat, l.filter (fun y => y.2 == n) <+:
            ((sc.filter (fun x => decide (0 < x.2))).filter (fun y => y.2 == n)))) ∧
    findRelevantChunks [chunkA0, chunkA1, chunkA3] "a".toList 2 =
      some [(chunkA3, 3), (chunkA1, 1)] ∧
    findRelevantChunks [chunkA0, chunkA1] "a".toList 2 = some [(chunkA1, 1)] := by
  refine ⟨?_, by decide, by decide⟩
  intro corpus query k l hl
  unfold findRelevantChunks at hl
  obtain ⟨sc0, hsc0, hg⟩ := Option.map_eq_some'.mp hl
  subst hg
  refine ⟨?_, ?_, ?_, ?_⟩
  · rw [List.length_take]
    exact Nat.min_le_left _ _
  · intro x hx
    have hx1 : x ∈ List.insertionSort scoreGe
        (sc0.filter (fun x => decide (0 < x.2))) := (List.take_sublist _ _).subset hx
    have hx2 : x ∈ sc0.filter (fun x => decide (0 < x.2)) :=
      (List.perm_insertionSort scoreGe _).subset hx1
    exact of_decide_eq_true (List.mem_filter.mp hx2).2
  · exact List.Pairwise.sublist (List.take_sublist _ _)
      (List.sorted_insertionSort scoreGe _)
  · intro sc hsc
    rw [hsc] at hsc0
    obtain rfl := Option.some.inj hsc0
    constructor
    · rw [List.length_take, (List.perm_insertionSort scoreGe _).length_eq]
    · intro n
      have h1 := filter_take_isPrefix (fun y => y.2 == n) k
        (List.insertionSort scoreGe (sc.filter (fun x => decide (0 < x.2))))
      rw [filter_insertionSort n] at h1
      exact h1

/-- C8 witness: the contract applied at a concrete call. -/
theorem C8_retrieval_contract_witness :
    (([(chunkA3, 3), (chunkA1, 1)] : List (Chunk × Nat)).length ≤ 2 ∧
      (∀ x ∈ ([(chunkA3, 3), (chunkA1, 1)] : List (Chunk × Nat)), 0 < x.2) ∧
      List.Pairwise scoreGe [(chunkA3, 3), (chunkA1, 1)] ∧
      (∀ sc, scoredList [chunkA0, chunkA1, chunkA3] "a".toList = some sc →
        ([(chunkA3, 3), (chunkA1, 1)] : List (Chunk × Nat)).length =
          min 2 ((sc.filter (fun x => decide (0 < x.2))).length) ∧
        ∀ n : Nat, ([(chunkA3, 3), (chunkA1, 1)] : List (Chunk × Nat)).filter
            (fun y => y.2 == n) <+:
          ((sc.filter (fun x => decide (0 < x.2))).filter (fun y => y.2 == n)))) :=
  C8_retrieval_contract.1 [chunkA0, chunkA1, chunkA3] "a".toList 2
    [(chunkA3, 3), (chunkA1, 1)] (by decide)
